import Mathlib

/-!
Shallow embedding of the scroll/slice engine of `esdump` (an Elasticsearch
index dumper), together with proofs of its specified properties.

Machine integers (`uint64` counters) are modelled as `Nat` with explicit
reduction modulo `2 ^ 64` where Go performs wrapping arithmetic.  The
`float32` throttle factor is modelled as an exact rational, and Go
durations (`time.Duration`, an `int64` of nanoseconds) as `Int`.
Channel sends and HTTP calls are modelled as explicit traces: each
function returns the list of effects it performs.
-/

namespace Esdump

/-- Wrap-around bound of Go's `uint64`. -/
def U64 : Nat := 2 ^ 64

/-! ### sendHits (src/scroll.go) -/

/-- State shared between the slice scrollers: the `scrolled` atomic counter
and the contents pushed so far to the `scrolledCh` sink channel
(the channel is modelled as the list of records sent to it, in order). -/
structure SendState where
  scrolled : Nat
  sent : List String
  deriving Repr, DecidableEq

/-- Embedding of `dumper.sendHits`: `count` is the configured `d.count`
(`uint64`, `0` means unlimited).  Returns the updated state and whether the
count limit has been reached.  The `uint64` add wraps modulo `2 ^ 64`. -/
def sendHits (count : Nat) (st : SendState) (hits : List String) :
    SendState × Bool :=
  if count > 0 ∧ st.scrolled ≥ count then
    (st, true)
  else
    let scrolled := (st.scrolled + hits.length) % U64
    (⟨scrolled, st.sent ++ hits⟩, decide (count > 0 ∧ scrolled ≥ count))

/-! ### throttlingDuration and cancelableSleep (src/scroll.go) -/

/-- Embedding of `dumper.throttlingDuration`.  `throttle` is the `float32`
factor modelled as an exact rational; `scrollTimeout` and `reqDuration` are
durations in nanoseconds.  The Go conversion `time.Duration(f)` of the
product is modelled as the floor (they agree for the nonnegative values
that arise). -/
def throttlingDuration (throttle : ℚ) (scrollTimeout reqDuration : ℤ) : ℤ :=
  if throttle ≤ 0 then 0
  else
    let delay : ℤ := ⌊throttle * (reqDuration : ℚ)⌋
    let maxDelay : ℤ := 3 * scrollTimeout / 4
    if delay > maxDelay then maxDelay else delay

/-- Embedding of `cancelableSleep`: returns the time actually slept.
`canceled` tells whether the context's cancellation signal fires during
the sleep; in that case the `select` abandons the timer immediately. -/
def cancelableSleep (canceled : Bool) (d : ℤ) : ℤ :=
  if d ≤ 0 then 0
  else if canceled then 0 else d

/-! ### GroupCounter (src/scroll.go) -/

/-- Embedding of `GroupCounter`: `cnt` is a `uint64`, `pending` a Go `int`
(modelled as `Int`, it is compared against `0` and may in principle go
negative, which the code guards with a panic). -/
structure GroupCounter where
  cnt : Nat
  pending : Int
  deriving Repr, DecidableEq

/-- Embedding of `NewGroupCounter`. -/
def NewGroupCounter (n : Nat) : GroupCounter := ⟨0, (n : Int)⟩

/-- Embedding of `GroupCounter.Report`; `none` models the
`panic("GroupCounter pending < 0")` branch.  The `uint64` accumulator
wraps modulo `2 ^ 64`. -/
def GroupCounter.Report (gc : GroupCounter) (c : Nat) : Option GroupCounter :=
  let pending := gc.pending - 1
  if pending < 0 then none
  else some ⟨(gc.cnt + c) % U64, pending⟩

/-- Embedding of `GroupCounter.Get`: the current count and whether all
goroutines have reported. -/
def GroupCounter.Get (gc : GroupCounter) : Nat × Bool :=
  (gc.cnt, decide (gc.pending = 0))

/-- Sequence of `Report` calls, propagating the panic. -/
def reportAll (gc : GroupCounter) : List Nat → Option GroupCounter
  | [] => some gc
  | c :: cs => (gc.Report c).bind fun gc' => reportAll gc' cs

/-! ### clearScrollContext (src/scroll.go) -/

/-- The deadline, in nanoseconds, of the fresh context
(`context.WithTimeout(context.Background(), 5*time.Second)`) used by
`clearScrollContext`. -/
def clearScrollDeadlineNs : Nat := 5 * 1000000000

/-- One `Delete` call issued by `clearScrollContext`, with the context it
runs under: `background` records that the context derives from
`context.Background()` (not the run's context) and `deadlineNs` its own
timeout. -/
structure DeleteCall where
  path : String
  background : Bool
  deadlineNs : Nat
  deriving Repr, DecidableEq

/-- Effects of a `clearScrollContext` call: the `Delete` requests issued and
the error-log lines emitted.  The function has no error result: its Go
return type is empty, so the structure carries no error field. -/
structure ClearEffect where
  deletes : List DeleteCall
  logs : List String
  deriving Repr, DecidableEq

/-- Outcome of the transport's `Delete`: a transport-level error, or a
status code with the raw response body. -/
def DeleteOutcome : Type := Except String (Nat × String)

/-- Embedding of `dumper.clearScrollContext`.  `delResult` is the outcome
of the single `Delete` the code may issue.  A transport-level error leaves
`status = 0`, so it triggers both log lines, as in the code. -/
def clearScrollContext (scrollID : String) (delResult : DeleteOutcome) :
    ClearEffect :=
  if scrollID = "" then ⟨[], []⟩
  else
    let call : DeleteCall :=
      ⟨"_search/scroll/" ++ scrollID, true, clearScrollDeadlineNs⟩
    let status : Nat := match delResult with
      | .error _ => 0
      | .ok (s, _) => s
    let errLogs : List String := match delResult with
      | .error e => ["clearing scroll context: " ++ e]
      | .ok _ => []
    let statusLogs : List String :=
      if status ≠ 200 then ["clearing scroll context: unexpected status"]
      else []
    ⟨[call], errLogs ++ statusLogs⟩

/-! ### scrollRequest (src/scroll.go) -/

/-- A decoded scroll response body, after the `scrollResp` accessors have
been applied: the hit payloads (already reduced to `_source` in
source-only mode), the total hit count, and the `_scroll_id` token. -/
structure ScrollResp where
  hits : List String
  total : Nat
  scrollID : String
  deriving Repr, DecidableEq

/-- Outcome of the transport's `Get` for a scroll request: a
transport-level error, or a status code together with the decoded response
(decoding only matters on status 200). -/
inductive GetOutcome where
  | err (e : String)
  | ok (status : Nat) (resp : ScrollResp)
  deriving Repr, DecidableEq

/-- Embedding of `dumper.scrollRequest`: returns
`(scrollID, totalHits, more, error)` together with the updated shared send
state.  `size` is the configured page size `d.size`, `count` the
configured count limit. -/
def scrollRequest (size count : Nat) (st : SendState) (outcome : GetOutcome) :
    (String × Nat × Bool × Option String) × SendState :=
  match outcome with
  | .err e => (("", 0, false, some e), st)
  | .ok status resp =>
    if status ≠ 200 then (("", 0, false, some "unexpected status code"), st)
    else
      let hits := resp.hits
      let (st', limitReached) := sendHits count st hits
      ((resp.scrollID, resp.total,
        decide (hits.length = size) && !limitReached, none), st')

/-! ### scrollSlice (src/scroll.go)

`scrollSlice` is driven by the results of successive `scrollRequest`
calls.  Each result, as consumed by `scrollSlice`, is either a failure
(`scrollRequest` then returned `("", 0, false, err)`) or a success
carrying the new token, the total-hit count and the `more` flag.  The
run is modelled against the list of outcomes the requests would produce;
`json.Marshal` of a `map[string]string` cannot fail, so that error branch
has no outcome. -/

/-- One `scrollRequest` result as seen by `scrollSlice`. -/
inductive ReqOutcome where
  | fail (e : String)
  | ok (scrollID : String) (total : Nat) (more : Bool)
  deriving Repr, DecidableEq

/-- Effects and result of a `scrollSlice` run.  `consumed` is the list of
request outcomes actually used (one per request issued), `reports` the
arguments of the `totalHitsCtr.Report` calls, `released` the `Delete`
calls issued by the deferred `clearScrollContext`, and `result` is
`some res` when the run returned (`res = none` for success), `none` when
the outcome trace was exhausted while the loop still wanted more. -/
structure SliceRun where
  consumed : List ReqOutcome
  reports : List Nat
  released : List DeleteCall
  result : Option (Option String)
  deriving Repr, DecidableEq

/-- The continuation loop of `scrollSlice` (lines 41–63): `scrollID` is the
current token.  A failed request returns its error without overwriting the
token, so the deferred cleanup still releases the previous one; a
successful request overwrites the token before the `more` check. -/
def scrollSliceLoop (scrollID : String) (delRes : DeleteOutcome) :
    List ReqOutcome → List ReqOutcome × List DeleteCall × Option (Option String)
  | [] => ([], [], none)
  | .fail e :: _ =>
    ([.fail e], (clearScrollContext scrollID delRes).deletes, some (some e))
  | .ok newScrollID total more :: rest =>
    if more then
      let r := scrollSliceLoop newScrollID delRes rest
      (.ok newScrollID total more :: r.1, r.2.1, r.2.2)
    else
      ([.ok newScrollID total more],
       (clearScrollContext newScrollID delRes).deletes, some none)

/-- Embedding of `dumper.scrollSlice`.  The first outcome is the open
request's; `Report` is called on its total (0 on failure, as
`scrollRequest` returns 0 then) before any error check; the deferred
`clearScrollContext` runs on every return path.  `delRes` is the outcome
of the `Delete` the deferred cleanup may issue. -/
def scrollSlice (delRes : DeleteOutcome) : List ReqOutcome → SliceRun
  | [] => ⟨[], [], [], none⟩
  | .fail e :: _ =>
    ⟨[.fail e], [0], (clearScrollContext "" delRes).deletes, some (some e)⟩
  | .ok scrollID total more :: rest =>
    if more then
      let r := scrollSliceLoop scrollID delRes rest
      ⟨.ok scrollID total more :: r.1, [total], r.2.1, r.2.2⟩
    else
      ⟨[.ok scrollID total more], [total],
       (clearScrollContext scrollID delRes).deletes, some none⟩

/-- Specification-side reading of a trace: the token returned by the most
recent successful scroll request, if any. -/
def lastOkToken : List ReqOutcome → Option String
  | [] => none
  | .fail _ :: rest => lastOkToken rest
  | .ok id _ _ :: rest => some ((lastOkToken rest).getD id)

/-- The same, threading a default: the current token after processing the
given outcomes starting from `dflt`. -/
def lastOkTokenD (dflt : String) : List ReqOutcome → String
  | [] => dflt
  | .fail _ :: rest => lastOkTokenD dflt rest
  | .ok id _ _ :: rest => lastOkTokenD id rest

/-! ### scrollQuery (src/scroll.go) -/

/-- JSON-like values, enough to model the query document (`obj` in the
source is `map[string]any`, modelled as an association list). -/
inductive JVal where
  | int (n : Int)
  | str (s : String)
  | bool (b : Bool)
  | obj (fields : List (String × JVal))
  | arr (elems : List JVal)

/-- A Go map assignment `m[k] = v` on the association-list model: any
previous binding of `k` is replaced. -/
def mapSet (m : List (String × JVal)) (k : String) (v : JVal) :
    List (String × JVal) :=
  m.filter (fun kv => kv.1 ≠ k) ++ [(k, v)]

/-- The partition marker `{"id": i, "max": n}` injected by `scrollQuery`. -/
def sliceMarker (sliceIdx sliceTotal : Int) : JVal :=
  .obj [("id", .int sliceIdx), ("max", .int sliceTotal)]

/-- Embedding of `dumper.scrollQuery`: the request body (as a structural
document, before JSON marshaling).  When `sliceTotal > 1` the query is
copied and the `"slice"` key set; otherwise the query is used as is. -/
def scrollQuery (query : List (String × JVal)) (sliceIdx sliceTotal : Int) :
    List (String × JVal) :=
  if sliceTotal > 1 then
    mapSet query "slice" (sliceMarker sliceIdx sliceTotal)
  else query

/-! ### initScrollers (main source file) -/

/-- Embedding of `dumper.initScrollers`: one task per (index, slice) pair.
Each task is identified by its slice descriptor
`(index name, slice index, slice count)`; the Go closure calls
`scrollSlice ctx idxName i slices` with exactly these values.
`maxSlices` is `d.slices` (a Go `int`). -/
def initScrollers (maxSlices : Int) (indexShards : List (String × Int)) :
    List (String × Int × Int) :=
  indexShards.flatMap fun p =>
    let slices := if maxSlices > p.2 then p.2 else maxSlices
    (List.range slices.toNat).map fun i => (p.1, Int.ofNat i, slices)

/-! ### httpClient.Do (src/http.go) -/

/-- Embedding of `httpClient.Do`.  `unmarshal` models `json.Unmarshal`
into the caller-supplied destination: `none` when the destination `dst` is
nil, `some u` otherwise, where `u body` is `none` on a decode error.
`transport` is the outcome of sending the request and reading the
response body (`.error` for a transport-level failure, `.ok (status, body)`
otherwise).  Returns `((status, raw, err), populated)` where `populated`
is the value unmarshalled into the destination (`none` = destination left
untouched). -/
def Do {δ : Type} (unmarshal : Option (String → Option δ))
    (transport : Except String (Nat × String)) :
    (Nat × Option String × Option String) × Option δ :=
  match transport with
  | .error e => ((0, none, some ("sending request: " ++ e)), none)
  | .ok (status, body) =>
    if status ≠ 200 then ((status, some body, none), none)
    else
      match unmarshal with
      | none => ((status, none, none), none)
      | some u =>
        match u body with
        | none => ((0, none, some "unmarshaling response body"), none)
        | some v => ((status, none, none), some v)

/-! ### write (output stage source file) -/

/-- One record received from the sink channel by `write`: its payload (after
the possible `json.Compact`), whether `ctx.Err()` was non-nil when it was
received, and whether processing it (compacting or writing to the output)
succeeds. -/
structure WHit where
  payload : String
  ctxErr : Bool
  ok : Bool
  deriving Repr, DecidableEq

/-- Embedding of `dumper.write`, folded over the records received from the
channel with the `dumped` counter and the `stop` flag as state.  Returns
the final `dumped` value, the payloads written to the output in order, and
the error result (`none` = nil).  A record received while `ctx.Err()` is
non-nil or `stop` is set is discarded; a processing failure returns the
error at once (leaving the rest of the channel undrained); `dumped` is a
`uint64` and wraps. -/
def write (count : Nat) : Nat → Bool → List WHit → Nat × List String × Option String
  | dumped, _, [] => (dumped, [], none)
  | dumped, stop, h :: rest =>
    if h.ctxErr || stop then write count dumped stop rest
    else if !h.ok then (dumped, [], some "write error")
    else
      let dumped' := (dumped + 1) % U64
      let stop' := stop || decide (count > 0 ∧ dumped' ≥ count)
      let r := write count dumped' stop' rest
      (r.1, h.payload :: r.2.1, r.2.2)

/-! ### Observation helpers -/

/-- Key lookup in the association-list model of a Go map (observation
used to state properties of the produced query document). -/
def getKey (m : List (String × JVal)) (k : String) : Option JVal :=
  match m with
  | [] => none
  | kv :: rest => if kv.1 = k then some kv.2 else getKey rest k

/-! ## Theorems -/

/-- A key filtered out of the map is not found. -/
theorem getKey_filter_ne (q : List (String × JVal)) (k : String) :
    getKey (q.filter (fun kv => kv.1 ≠ k)) k = none := by
  induction q with
  | nil => rfl
  | cons a q ih =>
    rw [List.filter_cons]
    by_cases h : a.1 = k
    · simpa [h] using ih
    · simpa [h, getKey] using ih

/-- Lookup walks past a map in which the key is absent. -/
theorem getKey_append_of_none (l₁ l₂ : List (String × JVal)) (k : String)
    (h : getKey l₁ k = none) : getKey (l₁ ++ l₂) k = getKey l₂ k := by
  induction l₁ with
  | nil => rfl
  | cons a l₁ ih =>
    by_cases ha : a.1 = k
    · simp [getKey, ha] at h
    · simp only [getKey, ha, if_false, List.cons_append] at h ⊢
      exact ih h

/-- Claim C2: `sendHits` implements the check-then-push count-limit
protocol: when the count is positive and the retrieved counter already
meets or exceeds it, it returns `true` without pushing anything;
otherwise it pushes every record of the page to the sink in order, adds
the page's record count to the counter, and returns `true` iff the count
is positive and the updated counter meets or exceeds it. -/
theorem sendHits_spec (count : Nat) (st : SendState) (hits : List String)
    (hov : st.scrolled + hits.length < U64) :
    (0 < count ∧ st.scrolled ≥ count → sendHits count st hits = (st, true)) ∧
    (¬ (0 < count ∧ st.scrolled ≥ count) →
      (sendHits count st hits).1.sent = st.sent ++ hits ∧
      (sendHits count st hits).1.scrolled = st.scrolled + hits.length ∧
      (sendHits count st hits).2 =
        decide (0 < count ∧ st.scrolled + hits.length ≥ count)) := by
  have hmod : (st.scrolled + hits.length) % U64 = st.scrolled + hits.length :=
    Nat.mod_eq_of_lt hov
  constructor
  · intro h
    simp [sendHits, h]
  · intro h
    simp [sendHits, h, hmod]

/-- Witness for C2 at a concrete input: count 2, empty counter, one hit. -/
theorem sendHits_spec_witness :
    (0 : Nat) + (["a"] : List String).length < U64 ∧
    ¬ (0 < 2 ∧ (0 : Nat) ≥ 2) ∧
    ((sendHits 2 ⟨0, []⟩ ["a"]).1.sent = [] ++ ["a"] ∧
      (sendHits 2 ⟨0, []⟩ ["a"]).1.scrolled = 0 + (["a"] : List String).length ∧
      (sendHits 2 ⟨0, []⟩ ["a"]).2 = decide (0 < 2 ∧ 0 + (["a"] : List String).length ≥ 2)) :=
  ⟨by decide, by decide,
    (sendHits_spec 2 ⟨0, []⟩ ["a"] (by decide)).2 (by decide)⟩

/-- Claim C4: a throttle factor ≤ 0 yields zero delay; a positive factor
yields `min (throttleFactor × requestDuration) (3/4 × scrollTimeout)`;
`cancelableSleep` returns immediately for a non-positive delay and
abandons the sleep when the cancellation signal fires. -/
theorem throttlingDuration_spec :
    (∀ (t : ℚ) (st rd : ℤ), t ≤ 0 → throttlingDuration t st rd = 0) ∧
    (∀ (t : ℚ) (st rd : ℤ), 0 < t →
      throttlingDuration t st rd = min ⌊t * (rd : ℚ)⌋ (3 * st / 4)) ∧
    (∀ (c : Bool) (d : ℤ), d ≤ 0 → cancelableSleep c d = 0) ∧
    (∀ d : ℤ, cancelableSleep true d = 0) := by
  refine ⟨fun t st rd h => by simp [throttlingDuration, h], ?_, ?_, ?_⟩
  · intro t st rd h
    simp only [throttlingDuration, not_le.mpr h, if_false]
    split_ifs with h' <;> omega
  · intro c d h
    simp [cancelableSleep, h]
  · intro d
    by_cases h : d ≤ 0 <;> simp [cancelableSleep, h]

/-- Witness for C4 at a concrete input: factor 4, one-second request,
one-minute scroll timeout (nanoseconds). -/
theorem throttlingDuration_spec_witness :
    (0 : ℚ) < 4 ∧
    throttlingDuration 4 60000000000 1000000000 =
      min ⌊(4 : ℚ) * ((1000000000 : ℤ) : ℚ)⌋ (3 * 60000000000 / 4) ∧
    (-3 : ℤ) ≤ 0 ∧ cancelableSleep false (-3) = 0 ∧
    cancelableSleep true 7 = 0 :=
  ⟨by norm_num, throttlingDuration_spec.2.1 4 60000000000 1000000000 (by norm_num),
    by norm_num, throttlingDuration_spec.2.2.1 false (-3) (by norm_num),
    throttlingDuration_spec.2.2.2 7⟩

/-- Claim C9: cursor cleanup never escalates: `clearScrollContext` is a
no-op on the empty token; on a non-empty token it issues exactly one
`Delete` to `_search/scroll/{token}` under its own background context with
a 5-second deadline, the calls issued do not depend on the delete's
outcome (failures are only logged), and transport errors or non-200
statuses produce log lines, never an error result (the return type has no
error component). -/
theorem clearScrollContext_spec :
    (∀ r : DeleteOutcome, clearScrollContext "" r = ⟨[], []⟩) ∧
    (∀ (id : String) (r : DeleteOutcome), id ≠ "" →
      (clearScrollContext id r).deletes =
        [⟨"_search/scroll/" ++ id, true, clearScrollDeadlineNs⟩]) ∧
    (∀ (id : String) (r r' : DeleteOutcome),
      (clearScrollContext id r).deletes = (clearScrollContext id r').deletes) ∧
    (∀ (id e : String), id ≠ "" →
      (clearScrollContext id (.error e)).logs ≠ []) ∧
    (∀ (id : String) (status : Nat) (raw : String), id ≠ "" → status ≠ 200 →
      (clearScrollContext id (.ok (status, raw))).logs ≠ []) := by
  refine ⟨fun r => by simp [clearScrollContext], ?_, ?_, ?_, ?_⟩
  · intro id r h
    simp [clearScrollContext, h]
  · intro id r r'
    by_cases h : id = "" <;> simp [clearScrollContext, h]
  · intro id e h
    simp [clearScrollContext, h]
  · intro id status raw h hs
    simp [clearScrollContext, h, hs]

/-- Witness for C9 at a concrete input: token `"abc"`, failing delete. -/
theorem clearScrollContext_spec_witness :
    ("abc" : String) ≠ "" ∧
    (clearScrollContext "abc" (.error "net")).deletes =
      [⟨"_search/scroll/" ++ "abc", true, clearScrollDeadlineNs⟩] ∧
    (clearScrollContext "abc" (.error "net")).logs ≠ [] ∧
    (clearScrollContext "abc" (.ok (503, "busy"))).logs ≠ [] :=
  ⟨by decide, clearScrollContext_spec.2.1 "abc" (.error "net") (by decide),
    clearScrollContext_spec.2.2.2.1 "abc" "net" (by decide),
    clearScrollContext_spec.2.2.2.2 "abc" 503 "busy" (by decide) (by decide)⟩

/-- Claim C7: the open-scroll request body produced by `scrollQuery`
carries the partition marker `{"slice": {"id": i, "max": n}}` if and only
if the slice count is greater than 1; for slice count 1 no `"slice"` key
is present (the query document built upstream carries no `"slice"` key). -/
theorem scrollQuery_spec (q : List (String × JVal)) (i n : Int)
    (h : getKey q "slice" = none) :
    getKey (scrollQuery q i n) "slice" =
      if 1 < n then some (sliceMarker i n) else none := by
  by_cases hn : 1 < n
  · simp only [scrollQuery, hn, if_true]
    rw [mapSet, getKey_append_of_none _ _ _ (getKey_filter_ne q "slice")]
    rfl
  · simpa [scrollQuery, hn] using h

/-- Witness for C7 at concrete inputs: slice 2 of 5 on a `"slice"`-free
query carries the marker; the same query for slice count 1 does not. -/
theorem scrollQuery_spec_witness :
    getKey [("size", JVal.int 1000)] "slice" = none ∧
    getKey (scrollQuery [("size", JVal.int 1000)] 2 5) "slice" =
      (if 1 < (5 : Int) then some (sliceMarker 2 5) else none) ∧
    getKey (scrollQuery [("size", JVal.int 1000)] 0 1) "slice" =
      (if 1 < (1 : Int) then some (sliceMarker 0 1) else none) :=
  ⟨rfl, scrollQuery_spec [("size", JVal.int 1000)] 2 5 rfl,
    scrollQuery_spec [("size", JVal.int 1000)] 0 1 rfl⟩

/-- Claim C5: for a request executed without a transport-level failure,
the destination is populated only on HTTP 200: a non-200 status returns
the status code with the raw bytes and a nil error, a transport error
returns a non-nil error with no status, and a 200 with a non-nil
destination that decodes returns a nil byte slice with the destination
populated. -/
theorem Do_spec {δ : Type} (unm : String → Option δ) :
    (∀ e : String,
      Do (δ := δ) (some unm) (.error e) =
        ((0, none, some ("sending request: " ++ e)), none)) ∧
    (∀ (s : Nat) (b : String), s ≠ 200 →
      Do (some unm) (.ok (s, b)) = ((s, some b, none), none)) ∧
    (∀ (b : String) (v : δ), unm b = some v →
      Do (some unm) (.ok (200, b)) = ((200, none, none), some v)) ∧
    (∀ tr, (Do (some unm) tr).2.isSome → ∃ b, tr = .ok (200, b)) := by
  refine ⟨fun e => rfl, ?_, ?_, ?_⟩
  · intro s b hs
    simp [Do, hs]
  · intro b v hv
    simp [Do, hv]
  · intro tr htr
    match tr with
    | .error e => simp [Do] at htr
    | .ok (s, b) =>
      refine ⟨b, ?_⟩
      by_cases hs : s = 200
      · rw [hs]
      · simp [Do, hs] at htr

/-- Witness for C5 at concrete inputs, with a destination decoding `"7"`
to `7`. -/
theorem Do_spec_witness :
    ((404 : Nat) ≠ 200 ∧
      Do (some fun s => if s = "7" then some (7 : Nat) else none) (.ok (404, "missing")) =
        ((404, some "missing", none), none)) ∧
    ((if "7" = "7" then some (7 : Nat) else none) = some 7 ∧
      Do (some fun s => if s = "7" then some (7 : Nat) else none) (.ok (200, "7")) =
        ((200, none, none), some 7)) ∧
    Do (some fun s => if s = "7" then some (7 : Nat) else none) (.error "refused") =
      ((0, none, some ("sending request: " ++ "refused")), none) :=
  ⟨⟨by decide, (Do_spec _).2.1 404 "missing" (by decide)⟩,
    ⟨by decide, (Do_spec _).2.2.1 "7" 7 (by decide)⟩,
    (Do_spec _).1 "refused"⟩

/-- Counterexample to claim C3 as stated: with page size 1 and count
limit 1, a successfully decoded full page (record count = page size) does
not permit continuation, because the count limit was reached while
pushing it — so page fullness is not the sole continuation signal. -/
theorem scrollRequest_full_page_counterexample :
    (ScrollResp.mk ["h"] 7 "sid").hits.length = 1 ∧
    ¬ ((scrollRequest 1 1 ⟨0, []⟩ (.ok 200 ⟨["h"], 7, "sid"⟩)).1.2.2.1 = true ↔
        (ScrollResp.mk ["h"] 7 "sid").hits.length = 1) := by
  decide

/-- Claim C3 (amended): for every successfully decoded page response, the
slice continues if and only if the page is full AND the count limit was
not reached while pushing it; in particular a partial page always
terminates the slice's pagination, and an outcome with `more = false`
ends the run with a success result. -/
theorem scrollRequest_more_spec (size count : Nat) (st : SendState)
    (resp : ScrollResp) :
    ((scrollRequest size count st (.ok 200 resp)).1.2.2.1 =
      (decide (resp.hits.length = size) && !(sendHits count st resp.hits).2)) ∧
    (resp.hits.length ≠ size →
      (scrollRequest size count st (.ok 200 resp)).1.2.2.1 = false) ∧
    (∀ (delRes : DeleteOutcome) (s id : String) (tot : Nat)
        (rest : List ReqOutcome),
      (scrollSliceLoop s delRes (.ok id tot false :: rest)).2.2 = some none ∧
      (scrollSlice delRes (.ok id tot false :: rest)).result = some none) := by
  refine ⟨rfl, ?_, ?_⟩
  · intro h
    simp [scrollRequest, sendHits, h]
  · intro delRes s id tot rest
    exact ⟨rfl, rfl⟩

/-- Witness for C3's amended theorem at a concrete input: a partial page
(0 of 2 records) does not continue, and a `more = false` outcome ends the
run successfully. -/
theorem scrollRequest_more_spec_witness :
    (ScrollResp.mk [] 3 "t").hits.length ≠ 2 ∧
    (scrollRequest 2 0 ⟨0, []⟩ (.ok 200 ⟨[], 3, "t"⟩)).1.2.2.1 = false ∧
    (scrollSlice (.ok (200, "")) [.ok "t" 3 false]).result = some none :=
  ⟨by decide, (scrollRequest_more_spec 2 0 ⟨0, []⟩ ⟨[], 3, "t"⟩).2.1 (by decide),
    ((scrollRequest_more_spec 2 0 ⟨0, []⟩ ⟨[], 3, "t"⟩).2.2
      (.ok (200, "")) "" "t" 3 []).2⟩

/-- The threaded current-token function agrees with the
specification-side "most recent successful token". -/
theorem lastOkTokenD_eq_getD (l : List ReqOutcome) :
    ∀ dflt, lastOkTokenD dflt l = (lastOkToken l).getD dflt := by
  induction l with
  | nil => intro d; rfl
  | cons o rest ih =>
    intro d
    cases o with
    | fail e => simpa [lastOkTokenD, lastOkToken] using ih d
    | ok id tot more => simp [lastOkTokenD, lastOkToken, ih id]

/-- The continuation loop, when it terminates, releases exactly the
cleanup calls for the current token after the consumed outcomes: a failed
continuation does not overwrite the token. -/
theorem scrollSliceLoop_release (delRes : DeleteOutcome)
    (rest : List ReqOutcome) :
    ∀ s : String, (scrollSliceLoop s delRes rest).2.2.isSome →
      (scrollSliceLoop s delRes rest).2.1 =
        (clearScrollContext
          (lastOkTokenD s (scrollSliceLoop s delRes rest).1) delRes).deletes := by
  induction rest with
  | nil => intro s h; simp [scrollSliceLoop] at h
  | cons o rest ih =>
    intro s h
    cases o with
    | fail e => simp [scrollSliceLoop, lastOkTokenD]
    | ok nid tot more =>
      cases more with
      | false => simp [scrollSliceLoop, lastOkTokenD]
      | true =>
        have h' : (scrollSliceLoop nid delRes rest).2.2.isSome := by
          simpa [scrollSliceLoop] using h
        simpa [scrollSliceLoop, lastOkTokenD] using ih nid h'

/-- Claim C1: a terminated slice run whose most recent successful scroll
request returned the (non-empty) token `id` issues exactly one release
call, a `Delete` to `_search/scroll/{id}`: a failed continuation does not
overwrite the token, so the token valid before the failure is the one
released by the deferred cleanup. -/
theorem scrollSlice_release (delRes : DeleteOutcome) (t : List ReqOutcome)
    (id : String)
    (hterm : (scrollSlice delRes t).result.isSome)
    (hlast : lastOkToken (scrollSlice delRes t).consumed = some id)
    (hne : id ≠ "") :
    (scrollSlice delRes t).released =
      [⟨"_search/scroll/" ++ id, true, clearScrollDeadlineNs⟩] := by
  match t with
  | [] => simp [scrollSlice] at hterm
  | .fail e :: rest => simp [scrollSlice, lastOkToken] at hlast
  | .ok s0 tot more :: rest =>
    cases more with
    | false =>
      have hid : s0 = id := by simpa [scrollSlice, lastOkToken] using hlast
      subst hid
      simp [scrollSlice, clearScrollContext, hne]
    | true =>
      have hterm' : (scrollSliceLoop s0 delRes rest).2.2.isSome := by
        simpa [scrollSlice] using hterm
      have hrel := scrollSliceLoop_release delRes rest s0 hterm'
      have hid : lastOkTokenD s0 (scrollSliceLoop s0 delRes rest).1 = id := by
        rw [lastOkTokenD_eq_getD]
        simpa [scrollSlice, lastOkToken] using hlast
      show (scrollSlice delRes (.ok s0 tot true :: rest)).released = _
      simp only [scrollSlice, if_true]
      rw [hrel, hid]
      simp [clearScrollContext, hne]

/-- Witness for C1 at a concrete input: the run obtains token `"a"` and
the continuation then fails; exactly one release of `"a"` is issued. -/
theorem scrollSlice_release_witness :
    (scrollSlice (.error "net") [.ok "a" 5 true, .fail "boom"]).result.isSome ∧
    lastOkToken
      (scrollSlice (.error "net") [.ok "a" 5 true, .fail "boom"]).consumed = some "a" ∧
    ("a" : String) ≠ "" ∧
    (scrollSlice (.error "net") [.ok "a" 5 true, .fail "boom"]).released =
      [⟨"_search/scroll/" ++ "a", true, clearScrollDeadlineNs⟩] :=
  ⟨by decide, by decide, by decide,
    scrollSlice_release (.error "net") [.ok "a" 5 true, .fail "boom"] "a"
      (by decide) (by decide) (by decide)⟩

/-- Sequencing `Report` calls: with enough pending slots and no `uint64`
overflow, the counts accumulate and the pending counter drops by the
number of reports. -/
theorem reportAll_ok (cs : List Nat) : ∀ gc : GroupCounter,
    (cs.length : Int) ≤ gc.pending → gc.cnt + cs.sum < U64 →
    reportAll gc cs = some ⟨gc.cnt + cs.sum, gc.pending - cs.length⟩ := by
  induction cs with
  | nil =>
    intro gc _ _
    simp [reportAll]
  | cons c cs ih =>
    intro gc h1 h2
    have hlen : (cs.length : Int) + 1 ≤ gc.pending := by
      simp only [List.length_cons] at h1; push_cast at h1; omega
    have hp : ¬ gc.pending - 1 < 0 := by omega
    have hsum : gc.cnt + c + cs.sum < U64 := by
      simp only [List.sum_cons] at h2; omega
    have hmod : (gc.cnt + c) % U64 = gc.cnt + c := Nat.mod_eq_of_lt (by omega)
    simp only [reportAll, GroupCounter.Report, hp, if_false, Option.some_bind, hmod]
    rw [ih ⟨gc.cnt + c, gc.pending - 1⟩ (by push_cast; omega) (by simpa using hsum)]
    simp only [Option.some.injEq, GroupCounter.mk.injEq, List.sum_cons,
      List.length_cons]
    constructor
    · omega
    · push_cast; omega

/-- Claim C6: every slice run calls `Report` exactly once (the report
happens right after the open request resolves, before any error check,
with total 0 on failure); and a `GroupCounter` for `n` slices, after
`k ≤ n` reports whose sum does not overflow, returns the sum of the
reported counts with the all-reported flag true exactly when `k = n`. -/
theorem groupCounter_spec :
    (∀ (delRes : DeleteOutcome) (t : List ReqOutcome), t ≠ [] →
      (scrollSlice delRes t).reports.length = 1) ∧
    (∀ (n : Nat) (cs : List Nat), cs.length ≤ n → cs.sum < U64 →
      ∃ gc, reportAll (NewGroupCounter n) cs = some gc ∧
        gc.Get = (cs.sum, decide (cs.length = n))) := by
  constructor
  · intro delRes t h
    match t with
    | [] => exact absurd rfl h
    | .fail e :: rest => simp [scrollSlice]
    | .ok id tot more :: rest => cases more <;> simp [scrollSlice]
  · intro n cs h1 h2
    have hrep := reportAll_ok cs (NewGroupCounter n)
      (by simp [NewGroupCounter]; exact_mod_cast h1) (by simpa [NewGroupCounter] using h2)
    refine ⟨_, hrep, ?_⟩
    simp only [NewGroupCounter, GroupCounter.Get, Nat.zero_add, Prod.mk.injEq,
      true_and]
    rw [decide_eq_decide]
    omega

/-- Witness for C6 at concrete inputs: a failed open request still
reports once; two of three slices reporting 5 and 6 give count 11 with
the all-reported flag still false. -/
theorem groupCounter_spec_witness :
    ([ReqOutcome.fail "e"] : List ReqOutcome) ≠ [] ∧
    (scrollSlice (.error "x") [ReqOutcome.fail "e"]).reports.length = 1 ∧
    ([5, 6] : List Nat).length ≤ 3 ∧ ([5, 6] : List Nat).sum < U64 ∧
    (∃ gc, reportAll (NewGroupCounter 3) [5, 6] = some gc ∧
      gc.Get = (([5, 6] : List Nat).sum, decide (([5, 6] : List Nat).length = 3))) :=
  ⟨by decide, groupCounter_spec.1 (.error "x") [ReqOutcome.fail "e"] (by decide),
    by decide, by decide, groupCounter_spec.2 3 [5, 6] (by decide) (by decide)⟩

/-- Unfolding of `initScrollers` on a cons: the head index contributes one
block of tasks, then the rest. -/
theorem initScrollers_cons (m : Int) (p : String × Int)
    (rest : List (String × Int)) :
    initScrollers m (p :: rest) =
      ((List.range (if m > p.2 then p.2 else m).toNat).map
        fun i => (p.1, Int.ofNat i, if m > p.2 then p.2 else m)) ++
      initScrollers m rest := by
  simp [initScrollers]

/-- Counting the tasks of one index's block that carry a given name. -/
theorem block_filter_length (n0 : String) (slices : Int) (name : String)
    (k : Nat) :
    (((List.range k).map fun i => (n0, Int.ofNat i, slices)).filter
      (fun t => t.1 = name)).length = if n0 = name then k else 0 := by
  induction k with
  | zero => simp
  | succ k ih =>
    rw [List.range_succ, List.map_append, List.filter_append,
      List.length_append, ih]
    by_cases h : n0 = name
    · rw [if_pos h, if_pos h]
      simp [h]
    · rw [if_neg h, if_neg h]
      simp [h]

/-- Every task created by `initScrollers` carries the name of one of the
input indexes. -/
theorem mem_initScrollers_fst {m : Int} {ixs : List (String × Int)}
    {t : String × Int × Int} (h : t ∈ initScrollers m ixs) :
    t.1 ∈ ixs.map Prod.fst := by
  simp only [initScrollers, List.mem_flatMap, List.mem_map] at h
  obtain ⟨p, hp, i, _, rfl⟩ := h
  exact List.mem_map.mpr ⟨p, hp, rfl⟩

/-- An index name absent from the input contributes no task. -/
theorem initScrollers_filter_nil (m : Int) (ixs : List (String × Int))
    (name : String) (h : name ∉ ixs.map Prod.fst) :
    (initScrollers m ixs).filter (fun t => t.1 = name) = [] := by
  rw [List.filter_eq_nil_iff]
  intro t ht
  simp only [decide_eq_true_eq]
  intro heq
  exact h (heq ▸ mem_initScrollers_fst ht)

/-- Claim C8: for every index, the number of slice-scroller tasks created
by `initScrollers` equals `min (configured max slices) (shard count)`: an
index with fewer shards than the configured maximum is never
over-sliced. -/
theorem initScrollers_spec (m : Int) (ixs : List (String × Int))
    (name : String) (shards : Int)
    (hnd : (ixs.map Prod.fst).Nodup) (hmem : (name, shards) ∈ ixs) :
    ((initScrollers m ixs).filter (fun t => t.1 = name)).length =
      (min m shards).toNat := by
  induction ixs with
  | nil => simp at hmem
  | cons p rest ih =>
    rw [initScrollers_cons, List.filter_append, List.length_append,
      block_filter_length]
    simp only [List.map_cons, List.nodup_cons] at hnd
    rcases List.mem_cons.mp hmem with heq | hmem'
    · have hp1 : p.1 = name := by rw [← heq]
      have hrest : name ∉ rest.map Prod.fst := hp1 ▸ hnd.1
      rw [initScrollers_filter_nil m rest name hrest]
      have hsh : p.2 = shards := by rw [← heq]
      rw [if_pos hp1, hsh]
      simp only [List.length_nil, Nat.add_zero]
      split_ifs with hcmp <;> omega
    · have hp1 : p.1 ≠ name := by
        intro hcontra
        exact hnd.1 (hcontra ▸ List.mem_map.mpr ⟨(name, shards), hmem', rfl⟩)
      rw [if_neg hp1, ih hnd.2 hmem']
      omega

/-- Witness for C8 at concrete inputs: max 10 slices over indexes with 3
and 20 shards give 3 and 10 tasks respectively. -/
theorem initScrollers_spec_witness :
    ((([("a", 3), ("b", 20)] : List (String × Int)).map Prod.fst).Nodup ∧
      (("a", 3) : String × Int) ∈ [(("a", 3) : String × Int), ("b", 20)] ∧
      ((initScrollers 10 [("a", 3), ("b", 20)]).filter
        (fun t => t.1 = "a")).length = (min 10 (3 : Int)).toNat) ∧
    ((initScrollers 10 [("a", 3), ("b", 20)]).filter
      (fun t => t.1 = "b")).length = (min 10 (20 : Int)).toNat :=
  ⟨⟨by decide, by decide,
      initScrollers_spec 10 [("a", 3), ("b", 20)] "a" 3 (by decide) (by decide)⟩,
    initScrollers_spec 10 [("a", 3), ("b", 20)] "b" 20 (by decide) (by decide)⟩

/-- Once `stop` is set, `write` drains the rest of the channel without
writing anything and returns nil, whatever the remaining records are. -/
theorem write_stopped (count : Nat) : ∀ (d : Nat) (hs : List WHit),
    write count d true hs = (d, [], none) := by
  intro d hs
  induction hs with
  | nil => rfl
  | cons h rest ih => simp [write, ih]

/-- Unfolding of `write` on a record that is actually processed. -/
theorem write_cons_process (count d : Nat) (h : WHit) (rest : List WHit)
    (hctx : h.ctxErr = false) (hok : h.ok = true) :
    write count d false (h :: rest) =
      ((write count ((d + 1) % U64)
          (decide (count > 0 ∧ (d + 1) % U64 ≥ count)) rest).1,
       h.payload ::
        (write count ((d + 1) % U64)
          (decide (count > 0 ∧ (d + 1) % U64 ≥ count)) rest).2.1,
       (write count ((d + 1) % U64)
          (decide (count > 0 ∧ (d + 1) % U64 ≥ count)) rest).2.2) := by
  simp [write, hctx, hok]

/-- The number of records `write` emits from an unstopped state is bounded
by the remaining budget. -/
theorem write_len (count : Nat) (hcu : count < U64) :
    ∀ (hs : List WHit) (d : Nat), d < count →
      (write count d false hs).2.1.length ≤ count - d := by
  intro hs
  induction hs with
  | nil => intro d _; simp [write]
  | cons h rest ih =>
    intro d hd
    cases hctx : h.ctxErr with
    | true =>
      have hr := ih d hd
      simpa [write, hctx] using hr
    | false =>
      cases hok : h.ok with
      | false => simp [write, hctx, hok]
      | true =>
        have hm : (d + 1) % U64 = d + 1 := Nat.mod_eq_of_lt (by omega)
        rw [write_cons_process count d h rest hctx hok, hm]
        by_cases hreach : count ≤ d + 1
        · have hdec : decide (count > 0 ∧ d + 1 ≥ count) = true := by
            simp only [decide_eq_true_eq]; omega
          rw [hdec, write_stopped]
          simp only [List.length_cons, List.length_nil]
          omega
        · have hdec : decide (count > 0 ∧ d + 1 ≥ count) = false := by
            simp only [decide_eq_false_iff_not]; omega
          rw [hdec]
          have hr := ih (d + 1) (by omega)
          simp only [List.length_cons]
          omega

/-- On a failure-free channel, `write` from an unstopped state emits
exactly the next `count - d` payloads (or all of them) and returns nil. -/
theorem write_clean (count : Nat) (hcu : count < U64) :
    ∀ (hs : List WHit) (d : Nat), d < count →
      (∀ h ∈ hs, h.ctxErr = false ∧ h.ok = true) →
      write count d false hs =
        (min (d + hs.length) count,
         (hs.map WHit.payload).take (count - d), none) := by
  intro hs
  induction hs with
  | nil =>
    intro d hd _
    simp only [write, List.length_nil, Nat.add_zero, List.map_nil,
      List.take_nil]
    rw [min_eq_left (le_of_lt hd)]
  | cons h rest ih =>
    intro d hd hcl
    have hctx := (hcl h (List.mem_cons_self h rest)).1
    have hok := (hcl h (List.mem_cons_self h rest)).2
    have hm : (d + 1) % U64 = d + 1 := Nat.mod_eq_of_lt (by omega)
    rw [write_cons_process count d h rest hctx hok, hm]
    have htake : count - d = (count - (d + 1)) + 1 := by omega
    by_cases hreach : count ≤ d + 1
    · have hdec : decide (count > 0 ∧ d + 1 ≥ count) = true := by
        simp only [decide_eq_true_eq]; omega
      rw [hdec, write_stopped]
      have h1 : min (d + (h :: rest).length) count = count := by
        simp only [List.length_cons]; omega
      have h2 : count - (d + 1) = 0 := by omega
      rw [h1, List.map_cons, htake, h2, List.take_succ_cons, List.take_zero]
      have h3 : d + 1 = count := by omega
      rw [h3]
    · have hdec : decide (count > 0 ∧ d + 1 ≥ count) = false := by
        simp only [decide_eq_false_iff_not]; omega
      rw [hdec, ih (d + 1) (by omega)
        (fun h' hh => hcl h' (List.mem_cons_of_mem h hh))]
      have h1 : d + 1 + rest.length = d + (h :: rest).length := by
        simp only [List.length_cons]; omega
      rw [List.map_cons, htake, List.take_succ_cons, h1]

/-- Claim C10: the output stage enforces the count limit exactly: for a
positive count, `write` emits at most `count` records; once the dumped
counter reaches the count every further record is discarded while the
channel keeps being drained, returning nil whatever the remaining records
are; and on a failure-free channel it writes exactly the first `count`
payloads (or all of them) and returns nil. -/
theorem write_spec (count : Nat) (hits : List WHit)
    (hc : 0 < count) (hcu : count < U64) :
    (write count 0 false hits).2.1.length ≤ count ∧
    (∀ (d : Nat) (hs : List WHit), write count d true hs = (d, [], none)) ∧
    ((∀ h ∈ hits, h.ctxErr = false ∧ h.ok = true) →
      (write count 0 false hits).2.1 = (hits.map WHit.payload).take count ∧
      (write count 0 false hits).2.2 = none) := by
  refine ⟨?_, write_stopped count, ?_⟩
  · have := write_len count hcu hits 0 hc
    omega
  · intro hcl
    rw [write_clean count hcu hits 0 hc hcl]
    exact ⟨by rw [Nat.sub_zero], rfl⟩

/-- Witness for C10 at a concrete input: count 2 over three clean records
writes exactly the first two and returns nil. -/
theorem write_spec_witness :
    0 < 2 ∧ 2 < U64 ∧
    ((write 2 0 false [⟨"r1", false, true⟩, ⟨"r2", false, true⟩,
        ⟨"r3", false, true⟩]).2.1.length ≤ 2 ∧
      (∀ (d : Nat) (hs : List WHit), write 2 d true hs = (d, [], none)) ∧
      ((∀ h ∈ ([⟨"r1", false, true⟩, ⟨"r2", false, true⟩,
          ⟨"r3", false, true⟩] : List WHit), h.ctxErr = false ∧ h.ok = true) →
        (write 2 0 false [⟨"r1", false, true⟩, ⟨"r2", false, true⟩,
          ⟨"r3", false, true⟩]).2.1 =
          (([⟨"r1", false, true⟩, ⟨"r2", false, true⟩,
            ⟨"r3", false, true⟩] : List WHit).map WHit.payload).take 2 ∧
        (write 2 0 false [⟨"r1", false, true⟩, ⟨"r2", false, true⟩,
          ⟨"r3", false, true⟩]).2.2 = none)) :=
  ⟨by decide, by decide,
    write_spec 2 [⟨"r1", false, true⟩, ⟨"r2", false, true⟩, ⟨"r3", false, true⟩]
      (by decide) (by decide)⟩

end Esdump
